import Mathlib

/-!
# move-harness — verification of the session lifecycle and output-interpretation layer

Shallow embedding of the `move-harness` TypeScript package:

* `src/cli/parser.ts` — JSON envelope extraction (`parseJsonOutput`,
  `extractResult`, `isErrorOutput`);
* `src/core/session.ts` (the shipped build `dist/core/session.js`, which is the
  newer of the two copies present in the repository and the one the claims
  cite) — the `SimulationSession` state machine (`compile`, `publish`,
  `compileAndPublish`, `run`, `view`, `runScript`, `fund`, `viewResource`,
  `destroy`, `generateAccount`, `cleanBuildDir`, `assertAlive`) and the helper
  parsers (`parseVmStatus`, `decodeAbortCode`, `parseRunResult`).

Modelling conventions:

* JavaScript strings are Lean `String`s; all character-level work happens on
  `String.data` (`List Char`) so that every definition kernel-evaluates.
* `JSON.parse` is modelled by `jsonParse`, a fuel-based recursive-descent
  parser for the JSON fragment the CLI emits (objects, arrays, strings with
  the common escapes, integer numerals, `true`/`false`/`null`).  A parse
  failure is `none`, mirroring the thrown `SyntaxError`.
* The filesystem is a set of existing paths (`FS`); `fs.rmSync(p, {recursive:
  true, force: true})` removes `p` and every path below it; `fs.existsSync`
  is membership.  `path.resolve` is the identity (paths are modelled as
  already absolute) and `path.join a b` is `a ++ "/" ++ b`.
* The external process adapter (`executeAptosCli`) and the keypair generator
  (`Account.generate`) are oracles: each session operation receives the
  adapter response for its (single) invocation as an argument and reports
  in `cliCalls` how many times the adapter was actually consulted.
-/

namespace MoveHarness

/-! ## Characters and low-level string helpers -/

/-- The left-brace character, written via `Char.ofNat` to keep brace
characters out of literals. -/
def lbrace : Char := Char.ofNat 123

/-- The right-brace character. -/
def rbrace : Char := Char.ofNat 125

/-- The left-bracket character. -/
def lbrack : Char := Char.ofNat 91

/-- The right-bracket character. -/
def rbrack : Char := Char.ofNat 93

/-- The double-quote character. -/
def dquote : Char := Char.ofNat 34

/-- The backslash character. -/
def bslash : Char := Char.ofNat 92

/-- The newline character. -/
def nl : Char := Char.ofNat 10

/-- JavaScript `\s` on the ASCII range: space, tab, LF, VT, FF, CR. -/
def isWs (c : Char) : Bool :=
  c = Char.ofNat 32 ∨ c = Char.ofNat 9 ∨ c = Char.ofNat 10 ∨
  c = Char.ofNat 11 ∨ c = Char.ofNat 12 ∨ c = Char.ofNat 13

/-- Decimal digit. -/
def isDigitC (c : Char) : Bool := Char.ofNat 48 ≤ c ∧ c ≤ Char.ofNat 57

/-- Hexadecimal digit (`[a-fA-F0-9]`). -/
def isHexC (c : Char) : Bool :=
  isDigitC c ∨ (Char.ofNat 97 ≤ c ∧ c ≤ Char.ofNat 102) ∨
  (Char.ofNat 65 ≤ c ∧ c ≤ Char.ofNat 70)

/-- JavaScript `\w`: `[A-Za-z0-9_]`. -/
def isWordC (c : Char) : Bool :=
  isDigitC c ∨ (Char.ofNat 97 ≤ c ∧ c ≤ Char.ofNat 122) ∨
  (Char.ofNat 65 ≤ c ∧ c ≤ Char.ofNat 90) ∨ c = Char.ofNat 95

/-- ASCII lowercasing, for the `/i` regex flag. -/
def lowerC (c : Char) : Char :=
  if Char.ofNat 65 ≤ c ∧ c ≤ Char.ofNat 90 then Char.ofNat (c.toNat + 32) else c

/-- Model of JavaScript `String.prototype.trim` (ASCII whitespace). -/
def trimChars (cs : List Char) : List Char :=
  ((cs.dropWhile isWs).reverse.dropWhile isWs).reverse

/-- `stdout.trim()`. -/
def jsTrim (s : String) : String := ⟨trimChars s.data⟩

/-- Digit value of a decimal digit character. -/
def digitVal (c : Char) : Nat := c.toNat - 48

/-- Value of a hexadecimal digit character. -/
def hexVal (c : Char) : Nat :=
  if isDigitC c then c.toNat - 48
  else if Char.ofNat 97 ≤ c ∧ c ≤ Char.ofNat 102 then c.toNat - 87
  else c.toNat - 55

/-- Fold a digit list into a natural number in the given base. -/
def digitsToNat (base : Nat) (val : Char → Nat) (ds : List Char) : Nat :=
  ds.foldl (fun acc c => acc * base + val c) 0

/-! ## JSON values and a model of `JSON.parse` -/

/-- JSON values, restricted to the fragment the Aptos CLI envelopes use
(numbers are integer-valued). -/
inductive Json where
  | null
  | bool (b : Bool)
  | num (n : Int)
  | str (s : String)
  | arr (elems : List Json)
  | obj (fields : List (String × Json))

/-- Skip JSON whitespace. -/
def skipWs : List Char → List Char
  | c :: cs => if isWs c then skipWs cs else c :: cs
  | [] => []

/-- Parse the body of a JSON string literal (after the opening quote),
handling the common escapes.  Returns the string and the input after the
closing quote. -/
def parseJsonString : List Char → Option (List Char × List Char)
  | [] => none
  | c :: cs =>
    if c = dquote then some ([], cs)
    else if c = bslash then
      match cs with
      | [] => none
      | e :: cs' =>
        let esc : Option Char :=
          if e = dquote then some dquote
          else if e = bslash then some bslash
          else if e = Char.ofNat 47 then some (Char.ofNat 47)
          else if e = Char.ofNat 110 then some nl
          else if e = Char.ofNat 116 then some (Char.ofNat 9)
          else if e = Char.ofNat 114 then some (Char.ofNat 13)
          else if e = Char.ofNat 98 then some (Char.ofNat 8)
          else if e = Char.ofNat 102 then some (Char.ofNat 12)
          else none
        match esc with
        | some ch =>
          match parseJsonString cs' with
          | some (rest, after) => some (ch :: rest, after)
          | none => none
        | none => none
    else if c = nl then none
    else
      match parseJsonString cs with
      | some (rest, after) => some (c :: rest, after)
      | none => none

/-- Parse a JSON integer numeral (optional minus; no leading zeros). -/
def parseJsonNumber (cs : List Char) : Option (Int × List Char) :=
  let (neg, cs') : Bool × List Char :=
    match cs with
    | c :: rest => if c = Char.ofNat 45 then (true, rest) else (false, cs)
    | [] => (false, cs)
  let ds := cs'.takeWhile isDigitC
  let rest := cs'.drop ds.length
  match ds with
  | [] => none
  | [_] =>
    let n : Int := Int.ofNat (digitsToNat 10 digitVal ds)
    some (if neg then -n else n, rest)
  | d :: _ =>
    if d = Char.ofNat 48 then none  -- leading zero
    else
      let n : Int := Int.ofNat (digitsToNat 10 digitVal ds)
      some (if neg then -n else n, rest)

mutual

/-- Recursive-descent JSON value parser (fuel-bounded). -/
def parseJsonValue : Nat → List Char → Option (Json × List Char)
  | 0, _ => none
  | fuel + 1, cs =>
    match skipWs cs with
    | [] => none
    | c :: rest =>
      if c = dquote then
        match parseJsonString rest with
        | some (s, after) => some (.str ⟨s⟩, after)
        | none => none
      else if c = lbrack then
        match skipWs rest with
        | d :: rest' =>
          if d = rbrack then some (.arr [], rest')
          else
            match parseJsonElems fuel (d :: rest') with
            | some (xs, after) => some (.arr xs, after)
            | none => none
        | [] => none
      else if c = lbrace then
        match skipWs rest with
        | d :: rest' =>
          if d = rbrace then some (.obj [], rest')
          else
            match parseJsonFields fuel (d :: rest') with
            | some (fs, after) => some (.obj fs, after)
            | none => none
        | [] => none
      else if c = Char.ofNat 116 then  -- letter t
        match rest with
        | r :: u :: e :: after =>
          if r = Char.ofNat 114 ∧ u = Char.ofNat 117 ∧ e = Char.ofNat 101 then
            some (.bool true, after)
          else none
        | _ => none
      else if c = Char.ofNat 102 then  -- letter f
        match rest with
        | a :: l :: s :: e :: after =>
          if a = Char.ofNat 97 ∧ l = Char.ofNat 108 ∧ s = Char.ofNat 115 ∧
             e = Char.ofNat 101 then some (.bool false, after)
          else none
        | _ => none
      else if c = Char.ofNat 110 then  -- letter n
        match rest with
        | u :: l :: l' :: after =>
          if u = Char.ofNat 117 ∧ l = Char.ofNat 108 ∧ l' = Char.ofNat 108 then
            some (.null, after)
          else none
        | _ => none
      else if c = Char.ofNat 45 ∨ isDigitC c then
        match parseJsonNumber (c :: rest) with
        | some (n, after) => some (.num n, after)
        | none => none
      else none

/-- Parse one-or-more comma-separated array elements. -/
def parseJsonElems : Nat → List Char → Option (List Json × List Char)
  | 0, _ => none
  | fuel + 1, cs =>
    match parseJsonValue fuel cs with
    | none => none
    | some (v, after) =>
      match skipWs after with
      | c :: rest =>
        if c = Char.ofNat 44 then  -- comma
          match parseJsonElems fuel rest with
          | some (vs, after') => some (v :: vs, after')
          | none => none
        else if c = rbrack then some ([v], rest)
        else none
      | [] => none

/-- Parse one-or-more comma-separated object fields. -/
def parseJsonFields : Nat → List Char → Option (List (String × Json) × List Char)
  | 0, _ => none
  | fuel + 1, cs =>
    match skipWs cs with
    | c :: rest =>
      if c = dquote then
        match parseJsonString rest with
        | none => none
        | some (key, afterKey) =>
          match skipWs afterKey with
          | k :: rest' =>
            if k = Char.ofNat 58 then  -- colon
              match parseJsonValue fuel rest' with
              | none => none
              | some (v, after) =>
                match skipWs after with
                | c' :: rest'' =>
                  if c' = Char.ofNat 44 then
                    match parseJsonFields fuel rest'' with
                    | some (fs, after') => some ((⟨key⟩, v) :: fs, after')
                    | none => none
                  else if c' = rbrace then some ([(⟨key⟩, v)], rest'')
                  else none
                | [] => none
            else none
          | [] => none
      else none
    | [] => none

end

/-- Model of `JSON.parse`: parse one value, allow surrounding whitespace,
reject trailing content.  `none` models the thrown `SyntaxError`. -/
def jsonParse (s : String) : Option Json :=
  match parseJsonValue (s.data.length + 1) s.data with
  | some (v, rest) => if (skipWs rest).isEmpty then some v else none
  | none => none

/-- JavaScript member lookup on a parsed JSON value (`obj.key`): duplicate
keys resolve to the last occurrence, as in `JSON.parse`; `none` models
`undefined` (non-objects, missing keys). -/
def jsGet (v : Json) (key : String) : Option Json :=
  match v with
  | .obj fields => (fields.reverse.find? (fun p => p.1 = key)).map (·.2)
  | _ => none

/-- `base?.key` through an optional-chaining step: `undefined`/`null`
propagate to `undefined`. -/
def jsGetO (v : Option Json) (key : String) : Option Json :=
  match v with
  | none => none
  | some .null => none
  | some w => jsGet w key

/-- `"key" in obj` for a parsed JSON value (only objects can contain keys). -/
def jsHas (v : Json) (key : String) : Bool :=
  match v with
  | .obj fields => fields.any (fun p => p.1 = key)
  | _ => false

/-! ## `src/cli/parser.ts` — JSON envelope extraction -/

/-- `CliParseError` (src/types/errors.ts): message plus the raw output. -/
structure CliParseE where
  message : String
  rawOutput : String
deriving Repr, DecidableEq

/-- `String.prototype.indexOf` for a single character: first index, `-1` when
absent. -/
def jsIndexOf (cs : List Char) (c : Char) : Int :=
  match cs with
  | [] => -1
  | a :: as =>
    if a = c then 0
    else
      let r := jsIndexOf as c
      if r < 0 then -1 else r + 1

/-- The `startIdx` computation of `parseJsonOutput` (src/cli/parser.ts:27-37):
earliest of the brace index and the bracket index, `-1` when neither
character occurs. -/
def jsStartIdx (cs : List Char) : Int :=
  let braceIdx := jsIndexOf cs lbrace
  let bracketIdx := jsIndexOf cs lbrack
  if braceIdx ≥ 0 ∧ bracketIdx ≥ 0 then min braceIdx bracketIdx
  else if braceIdx ≥ 0 then braceIdx
  else if bracketIdx ≥ 0 then bracketIdx
  else -1

/-- A JSON object- or array-opening character. -/
def isJsonDelim (c : Char) : Bool := c = lbrace ∨ c = lbrack

/-- Earliest index holding a JSON delimiter — the specification-level reading
of the `startIdx` computation, to be proved equal to `jsStartIdx`. -/
def firstDelimIdx : List Char → Option Nat
  | [] => none
  | c :: cs => if isJsonDelim c then some 0 else (firstDelimIdx cs).map (· + 1)

/-- First index of a single character — the same reading for `indexOf`. -/
def firstIdxOf (x : Char) : List Char → Option Nat
  | [] => none
  | c :: cs => if c = x then some 0 else (firstIdxOf x cs).map (· + 1)

/-- Encode an optional index the way JavaScript `indexOf` does. -/
def encodeIdx : Option Nat → Int
  | some i => (i : Int)
  | none => -1

/-- Minimum of two optional indices (`none` = absent). -/
def optMin : Option Nat → Option Nat → Option Nat
  | none, b => b
  | some i, none => some i
  | some i, some j => some (min i j)

/-- `parseJsonOutput` (src/cli/parser.ts:19-49): parse the trimmed stdout;
on failure retry from the first JSON delimiter; if both fail, throw
`CliParseError` carrying the trimmed text. -/
def parseJsonOutput (stdout : String) : Except CliParseE Json :=
  let trimmed := jsTrim stdout
  match jsonParse trimmed with
  | some v => .ok v
  | none =>
    let startIdx := jsStartIdx trimmed.data
    if startIdx ≥ 0 then
      match jsonParse ⟨trimmed.data.drop startIdx.toNat⟩ with
      | some v => .ok v
      | none => .error ⟨"Failed to parse JSON from CLI output", trimmed⟩
    else .error ⟨"Failed to parse JSON from CLI output", trimmed⟩

/-- `extractResult` (src/cli/parser.ts:66-72): unwrap the `Result` key when
present, otherwise return the parsed value unchanged. -/
def extractResult (stdout : String) : Except CliParseE Json :=
  match parseJsonOutput stdout with
  | .error e => .error e
  | .ok parsed =>
    if jsHas parsed "Result" then .ok ((jsGet parsed "Result").getD .null)
    else .ok parsed

/-- `isErrorOutput` (src/cli/parser.ts:78-85): the parsed output is an object
with an `Error` key; parse failures yield `false`. -/
def isErrorOutput (stdout : String) : Bool :=
  match parseJsonOutput stdout with
  | .ok parsed => jsHas parsed "Error"
  | .error _ => false

/-! ## Abort-code decoding (`decodeAbortCode`, dist/core/session.js) -/

/-- Does the list start with the given literal (case-sensitive)? -/
def startsWithLit (pat : List Char) (cs : List Char) : Bool :=
  match pat, cs with
  | [], _ => true
  | _ :: _, [] => false
  | p :: ps, c :: rest => c = p ∧ startsWithLit ps rest

/-- Model of `parseInt(s, radix)` for radix 10/16: skip leading whitespace,
optional sign, for radix 16 an optional `0x`/`0X` marker, then the maximal
digit run (ignoring any trailing junk); `none` models `NaN`. -/
def jsParseInt (radix16 : Bool) (s : String) : Option Int :=
  let cs := s.data.dropWhile isWs
  let (neg, cs) : Bool × List Char :=
    match cs with
    | c :: rest =>
      if c = Char.ofNat 45 then (true, rest)
      else if c = Char.ofNat 43 then (false, rest)
      else (false, c :: rest)
    | [] => (false, [])
  let cs :=
    if radix16 then
      match cs with
      | z :: x :: rest =>
        if z = Char.ofNat 48 ∧ (x = Char.ofNat 120 ∨ x = Char.ofNat 88) then rest
        else z :: x :: rest
      | other => other
    else cs
  let ds := cs.takeWhile (if radix16 then isHexC else isDigitC)
  match ds with
  | [] => none
  | _ =>
    let n : Int := Int.ofNat
      (if radix16 then digitsToNat 16 hexVal ds else digitsToNat 10 digitVal ds)
    some (if neg then -n else n)

/-- `ERROR_CATEGORIES` (dist/core/session.js): the canonical `std::error`
category table, keys `0x1`–`0xD`. -/
def ERROR_CATEGORIES (c : Nat) : Option String :=
  if c = 1 then some "INVALID_ARGUMENT"
  else if c = 2 then some "OUT_OF_RANGE"
  else if c = 3 then some "INVALID_STATE"
  else if c = 4 then some "UNAUTHENTICATED"
  else if c = 5 then some "PERMISSION_DENIED"
  else if c = 6 then some "NOT_FOUND"
  else if c = 7 then some "ABORTED"
  else if c = 8 then some "ALREADY_EXISTS"
  else if c = 9 then some "RESOURCE_EXHAUSTED"
  else if c = 10 then some "CANCELLED"
  else if c = 11 then some "INTERNAL"
  else if c = 12 then some "NOT_IMPLEMENTED"
  else if c = 13 then some "UNAVAILABLE"
  else none

/-- Lowercase hex digit for a value below 16. -/
def hexDigitChar (n : Nat) : Char :=
  if n < 10 then Char.ofNat (48 + n) else Char.ofNat (87 + n)

/-- Hex digits of `n` (fuel-bounded helper). -/
def toHexAux : Nat → Nat → List Char
  | 0, _ => []
  | _ + 1, 0 => []
  | fuel + 1, n => toHexAux fuel (n / 16) ++ [hexDigitChar (n % 16)]

/-- `num.toString(16)` for a natural number. -/
def toHexStr (n : Nat) : String :=
  if n = 0 then "0" else ⟨toHexAux n n⟩

/-- Decoded canonical abort code. -/
structure DecodedAbort where
  category : String
  reason : Nat
  hex : String
deriving Repr, DecidableEq

/-- `decodeAbortCode` (dist/core/session.js): parse the code as hex when it
starts with `0x`, else as decimal; reject `NaN` and negatives; look the
category byte up in `ERROR_CATEGORIES`, returning `none` for non-canonical
codes.  The JS `(num >> 16) & 0xFF` runs through `ToInt32` (i.e. modulo
`2^32`); since bits 16–23 of `n % 2^32` equal bits 16–23 of `n`, it is
`n / 2^16 % 2^8` on naturals, and `num & 0xFFFF` is `n % 2^16`. -/
def decodeAbortCode (code : String) : Option DecodedAbort :=
  match jsParseInt (startsWithLit "0x".data code.data) code with
  | none => none
  | some num =>
    if num < 0 then none
    else
      let n := num.toNat
      match ERROR_CATEGORIES (n / 65536 % 256) with
      | none => none
      | some name => some ⟨name, n % 65536, "0x" ++ toHexStr n⟩

/-! ## `parseVmStatus` (dist/core/session.js)

Each JS regex of the priority chain is translated into a deterministic
matcher.  Literal tokens are matched case-insensitively (`/i`); `\s+` runs
are matched greedily (all the regexes place a non-whitespace token after
`\s+`, so maximal munch is exact, except before a lazy `(.+?)` where the two
can differ only when the captured text itself begins with whitespace);
`\d+`, `\w+` and `[a-fA-F0-9]+` are maximal runs (in every pattern they are
followed by a token a digit/word character cannot start, so this is exact);
`.` never matches a newline; `$` matches only at the end of the string. -/

/-- Case-insensitive literal match, returning the remaining input. -/
def dropLitCI (pat : List Char) (cs : List Char) : Option (List Char) :=
  match pat, cs with
  | [], rest => some rest
  | _ :: _, [] => none
  | p :: ps, c :: rest => if lowerC c = lowerC p then dropLitCI ps rest else none

/-- `\s+` before a non-whitespace token: at least one whitespace character,
maximal munch. -/
def ws1 (cs : List Char) : Option (List Char) :=
  match cs with
  | c :: rest => if isWs c then some (rest.dropWhile isWs) else none
  | [] => none

/-- `(\d+)` (maximal). -/
def digits1 (cs : List Char) : Option (List Char × List Char) :=
  let ds := cs.takeWhile isDigitC
  if ds.isEmpty then none else some (ds, cs.drop ds.length)

/-- `(\w+)` (maximal). -/
def word1 (cs : List Char) : Option (List Char × List Char) :=
  let ds := cs.takeWhile isWordC
  if ds.isEmpty then none else some (ds, cs.drop ds.length)

/-- `[a-fA-F0-9]+` (maximal). -/
def hexs1 (cs : List Char) : Option (List Char × List Char) :=
  let ds := cs.takeWhile isHexC
  if ds.isEmpty then none else some (ds, cs.drop ds.length)

/-- `(.+)` with nothing after it: everything up to the next newline. -/
def takeNotNl (cs : List Char) : List Char := cs.takeWhile (· ≠ nl)

/-- `\s+(.+)$`: greedy whitespace, then a nonempty newline-free capture
reaching the end of the input.  When the whole input is whitespace the
greedy `\s+` backs off minimally, leaving the final character (if it is not
a newline) to the capture. -/
def capWsToEnd (cs : List Char) : Option (List Char) :=
  match cs with
  | [] => none
  | c :: _ =>
    if ¬ isWs c then none
    else
      let run := cs.takeWhile isWs
      let rest := cs.drop run.length
      if rest.isEmpty then
        match run.getLast? with
        | some l => if run.length ≥ 2 ∧ l ≠ nl then some [l] else none
        | none => none
      else if rest.contains nl then none
      else some rest

/-- Backtracking helper for `⟨class⟩+(.+)` when the whole input lies in the
class: the capture starts at the largest index `i ≥ 1` whose character is
not a newline (the counter is `i + 1`). -/
def backCap (run : List Char) : Nat → Option (List Char)
  | 0 => none
  | i + 1 =>
    match run.drop (i + 1) with
    | c :: _ => if c ≠ nl then some (takeNotNl (run.drop (i + 1))) else backCap run i
    | [] => backCap run i

/-- `⟨class⟩+(.+)` with nothing after the capture (used for `[:\s]+(.+)`):
greedy class run, then a nonempty capture up to the next newline. -/
def capAfterSep (cls : Char → Bool) (cs : List Char) : Option (List Char) :=
  match cs with
  | [] => none
  | c :: _ =>
    if ¬ cls c then none
    else
      let run := cs.takeWhile cls
      let rest := cs.drop run.length
      match rest with
      | _ :: _ => some (takeNotNl rest)
      | [] => backCap run (run.length - 1)

/-- Like `backCap` but the capture may start at index `0` (for `\s*`). -/
def backCapStar (run : List Char) : Nat → Option (List Char)
  | 0 => none
  | i + 1 =>
    match run.drop i with
    | c :: _ => if c ≠ nl then some (takeNotNl (run.drop i)) else backCapStar run i
    | [] => backCapStar run i

/-- `\s*(.+)` with nothing after the capture. -/
def capAfterWsStar (cs : List Char) : Option (List Char) :=
  let run := cs.takeWhile isWs
  let rest := cs.drop run.length
  match rest with
  | _ :: _ => some (takeNotNl rest)
  | [] => backCapStar run run.length

/-- Unanchored search: try the matcher at every start position, leftmost
first. -/
def searchMatch {α : Type} (f : List Char → Option α) : List Char → Option α
  | [] => f []
  | c :: rest =>
    match f (c :: rest) with
    | some r => some r
    | none => searchMatch f rest

/-- A run of `\s+⟨literal⟩` pairs: whitespace, the literal (case-insensitive),
repeated for each token. -/
def wsTokens (toks : List String) (cs : List Char) : Option (List Char) :=
  match toks with
  | [] => some cs
  | t :: ts =>
    match ws1 cs with
    | none => none
    | some r1 =>
      match dropLitCI t.data r1 with
      | none => none
      | some r2 => wsTokens ts r2

/-- `s.trim() || undefined`. -/
def trimOrNone (s : String) : Option String :=
  let t := jsTrim s
  if t = "" then none else some t

/-- `g?.trim() || undefined` for an optional capture group. -/
def optTrimOrNone (g : Option String) : Option String :=
  match g with
  | none => none
  | some s => trimOrNone s

/-! ### Pattern 1 — `/^status\s+ABORTED\s+with\s+code\s+(\d+)(?:\s+and\s+message\s+(.+?))?\s+in\s+(.+)$/i` -/

/-- Groups of the rich `KeptVMStatus` abort format. -/
structure KeptAbort where
  code : String
  message : Option String
  location : String
deriving Repr, DecidableEq

/-- `\s+in\s+(.+)$`. -/
def inTail (cs : List Char) : Option String :=
  match wsTokens ["in"] cs with
  | none => none
  | some r => (capWsToEnd r).map (fun loc => ⟨loc⟩)

/-- Lazy `(.+?)` before `\s+in\s+(.+)$`: the shortest nonempty newline-free
message followed by a matching tail. -/
def msgSplit (acc : List Char) : List Char → Option (Option String × String)
  | [] => none
  | c :: rest =>
    if c = nl then none
    else
      let acc' := c :: acc
      match inTail rest with
      | some loc => some (some ⟨acc'.reverse⟩, loc)
      | none => msgSplit acc' rest

/-- `\s+and\s+message\s+(.+?)\s+in\s+(.+)$`. -/
def keptMsgBranch (cs : List Char) : Option (Option String × String) :=
  match wsTokens ["and", "message"] cs with
  | none => none
  | some r =>
    match ws1 r with
    | none => none
    | some r' => msgSplit [] r'

/-- `(?:\s+and\s+message\s+(.+?))?\s+in\s+(.+)$` — the greedy optional group
is tried first. -/
def keptAbortTail (rest : List Char) : Option (Option String × String) :=
  match keptMsgBranch rest with
  | some r => some r
  | none => (inTail rest).map (fun loc => (none, loc))

/-- Pattern 1 (anchored at the start of the string). -/
def matchKeptAbort (s : String) : Option KeptAbort :=
  match dropLitCI "status".data s.data with
  | none => none
  | some r0 =>
    match wsTokens ["aborted", "with", "code"] r0 with
    | none => none
    | some r1 =>
      match ws1 r1 with
      | none => none
      | some r2 =>
        match digits1 r2 with
        | none => none
        | some (ds, rest) =>
          match keptAbortTail rest with
          | none => none
          | some (msg, loc) => some ⟨⟨ds⟩, msg, loc⟩

/-! ### Pattern 2 — `/EXECUTION_FAILURE\s+at\s+bytecode\s+offset\s+(\d+)\s+in\s+function\s+index\s+(\d+)\s+in\s+(.+?)(?:\s+with\s+error\s+message\s+(.+))?$/i` -/

/-- Groups of the `EXECUTION_FAILURE` format. -/
structure KeptExec where
  location : String
  message : Option String
deriving Repr, DecidableEq

/-- `\s+with\s+error\s+message\s+(.+)$`. -/
def keptExecMsgTail (cs : List Char) : Option String :=
  match wsTokens ["with", "error", "message"] cs with
  | none => none
  | some r => (capWsToEnd r).map (fun m => ⟨m⟩)

/-- Lazy `(.+?)` before `(?:\s+with\s+error\s+message\s+(.+))?$`: at each
length the greedy optional group is tried before the bare end-of-input. -/
def locSplit (acc : List Char) : List Char → Option KeptExec
  | [] => none
  | c :: rest =>
    if c = nl then none
    else
      let acc' := c :: acc
      match keptExecMsgTail rest with
      | some m => some ⟨⟨acc'.reverse⟩, some m⟩
      | none =>
        if rest.isEmpty then some ⟨⟨acc'.reverse⟩, none⟩
        else locSplit acc' rest

/-- Digits then `\s+⟨tokens⟩\s+`: the `(\d+)\s+in\s+…\s+` steps of
pattern 2 (the captured digits are unused by the decoder). -/
def digitsThen (toks : List String) (cs : List Char) : Option (List Char) :=
  match digits1 cs with
  | none => none
  | some (_, rest) =>
    match wsTokens toks rest with
    | none => none
    | some r =>
      match ws1 r with
      | none => none
      | some r' => some r'

/-- Pattern 2 at one start position. -/
def matchKeptExecAt (cs : List Char) : Option KeptExec :=
  match dropLitCI "execution_failure".data cs with
  | none => none
  | some r0 =>
    match wsTokens ["at", "bytecode", "offset"] r0 with
    | none => none
    | some r1 =>
      match ws1 r1 with
      | none => none
      | some r2 =>
        match digitsThen ["in", "function", "index"] r2 with
        | none => none
        | some r3 =>
          match digitsThen ["in"] r3 with
          | none => none
          | some r4 => locSplit [] r4

/-- Pattern 2, unanchored. -/
def matchKeptExec (s : String) : Option KeptExec :=
  searchMatch matchKeptExecAt s.data

/-! ### Pattern 3 — `/Move abort(?:\s+in\s+(0x[a-fA-F0-9]+::\w+(?:::\w+)?))?[:\s]+(.+)/i` -/

/-- Groups of the REST-style abort format. -/
structure MoveAbortM where
  location : Option String
  code : String
deriving Repr, DecidableEq

/-- `[:\s]`. -/
def colonOrWs (c : Char) : Bool := c = Char.ofNat 58 ∨ isWs c

/-- `0x[a-fA-F0-9]+::\w+`: the short module-path form.  Returns the number
of characters consumed. -/
def moveAbortLocShort (cs : List Char) : Option Nat :=
  match cs with
  | z :: x :: rest =>
    if z = Char.ofNat 48 ∧ lowerC x = Char.ofNat 120 then
      match hexs1 rest with
      | none => none
      | some (hs, rest1) =>
        match dropLitCI "::".data rest1 with
        | none => none
        | some rest2 =>
          match word1 rest2 with
          | none => none
          | some (w1, _) => some (2 + hs.length + 2 + w1.length)
    else none
  | _ => none

/-- `(?:::\w+)?` extension of the module path (greedy). -/
def moveAbortLocExt (cs : List Char) : Option Nat :=
  match dropLitCI "::".data cs with
  | none => none
  | some rest =>
    match word1 rest with
    | none => none
    | some (w2, _) => some (2 + w2.length)

/-- After a candidate location of `len` characters in `r3`, the `[:\s]+(.+)`
tail must match. -/
def moveAbortFromLoc (r3 : List Char) (len : Nat) : Option MoveAbortM :=
  (capAfterSep colonOrWs (r3.drop len)).map
    (fun code => ⟨some ⟨r3.take len⟩, ⟨code⟩⟩)

/-- The `\s+in\s+(⟨loc⟩)` branch of pattern 3: long path first, then short. -/
def moveAbortWithLoc (rest : List Char) : Option MoveAbortM :=
  match wsTokens ["in"] rest with
  | none => none
  | some r2 =>
    match ws1 r2 with
    | none => none
    | some r3 =>
      match moveAbortLocShort r3 with
      | none => none
      | some short =>
        match moveAbortLocExt (r3.drop short) with
        | some ext =>
          match moveAbortFromLoc r3 (short + ext) with
          | some r => some r
          | none => moveAbortFromLoc r3 short
        | none => moveAbortFromLoc r3 short

/-- Pattern 3 at one start position.  The optional location group is greedy:
the long path (`0x…::m::f`), then the short path (`0x…::m`), then no
location at all; after each alternative the `[:\s]+(.+)` tail must match. -/
def matchMoveAbortAt (cs : List Char) : Option MoveAbortM :=
  match dropLitCI "move abort".data cs with
  | none => none
  | some rest =>
    match moveAbortWithLoc rest with
    | some r => some r
    | none => (capAfterSep colonOrWs rest).map (fun code => ⟨none, ⟨code⟩⟩)

/-- Pattern 3, unanchored. -/
def matchMoveAbort (s : String) : Option MoveAbortM :=
  searchMatch matchMoveAbortAt s.data

/-! ### Pattern 4 — `/status\s+ABORTED\s+of\s+type\s+\w+\s+with\s+sub\s+status\s+(\d+)(?:\s+with\s+message\s+(.+))?$/i` -/

/-- `\s+with\s+message\s+(.+)$`. -/
def sessionMsgTail (cs : List Char) : Option String :=
  match wsTokens ["with", "message"] cs with
  | none => none
  | some r => (capWsToEnd r).map (fun m => ⟨m⟩)

/-- Pattern 4 at one start position. -/
def matchSessionAbortAt (cs : List Char) : Option (String × Option String) :=
  match dropLitCI "status".data cs with
  | none => none
  | some r0 =>
    match wsTokens ["aborted", "of", "type"] r0 with
    | none => none
    | some r1 =>
      match ws1 r1 with
      | none => none
      | some r2 =>
        match word1 r2 with
        | none => none
        | some (_, r3) =>
          match wsTokens ["with", "sub", "status"] r3 with
          | none => none
          | some r4 =>
            match ws1 r4 with
            | none => none
            | some r5 =>
              match digits1 r5 with
              | none => none
              | some (ds, rest) =>
                match sessionMsgTail rest with
                | some m => some (⟨ds⟩, some m)
                | none => if rest.isEmpty then some (⟨ds⟩, none) else none

/-- Pattern 4, unanchored. -/
def matchSessionAbort (s : String) : Option (String × Option String) :=
  searchMatch matchSessionAbortAt s.data

/-! ### Pattern 5 — `/status\s+(\w+)\s+of\s+type\s+\w+(?:\s+with\s+message\s+(.+))?$/i` -/

/-- Pattern 5 at one start position. -/
def matchSessionErrorAt (cs : List Char) : Option (String × Option String) :=
  match dropLitCI "status".data cs with
  | none => none
  | some r0 =>
    match ws1 r0 with
    | none => none
    | some r1 =>
      match word1 r1 with
      | none => none
      | some (name, r2) =>
        match wsTokens ["of", "type"] r2 with
        | none => none
        | some r3 =>
          match ws1 r3 with
          | none => none
          | some r4 =>
            match word1 r4 with
            | none => none
            | some (_, rest) =>
              match sessionMsgTail rest with
              | some m => some (⟨name⟩, some m)
              | none => if rest.isEmpty then some (⟨name⟩, none) else none

/-- Pattern 5, unanchored. -/
def matchSessionError (s : String) : Option (String × Option String) :=
  searchMatch matchSessionErrorAt s.data

/-! ### Pattern 6 — `/failed.*?:\s*(.+)/i` -/

/-- Lazy `.*?` scan after `failed`: at each position first try `:` followed
by `\s*(.+)`; `.*?` cannot cross a newline. -/
def failedScan : List Char → Option String
  | [] => none
  | c :: rest =>
    match (if c = Char.ofNat 58 then capAfterWsStar rest else none) with
    | some cap => some ⟨cap⟩
    | none => if c = nl then none else failedScan rest

/-- Pattern 6 at one start position. -/
def execFailedAt (cs : List Char) : Option String :=
  match dropLitCI "failed".data cs with
  | none => none
  | some rest => failedScan rest

/-- Pattern 6, unanchored. -/
def matchExecFailed (s : String) : Option String :=
  searchMatch execFailedAt s.data

/-! ### The decoder itself -/

/-- The structured result of `parseVmStatus` (dist/core/session.js). -/
structure VmStatusParsed where
  status : String
  abortCode : Option String := none
  location : Option String := none
  message : Option String := none
  category : Option String := none
  reason : Option Nat := none
deriving Repr, DecidableEq

/-- `parseVmStatus` (dist/core/session.js): try the six formats in priority
order; unmatched input degrades to the whole string as the status.  The
argument is `vmStatus?: string`; `!vmStatus` also catches the empty
string. -/
def parseVmStatus (vmStatus : Option String) : VmStatusParsed :=
  match vmStatus with
  | none => { status := "unknown error" }
  | some v =>
    if v = "" then { status := "unknown error" }
    else
      match matchKeptAbort v with
      | some ka =>
        let decoded := decodeAbortCode ka.code
        { status := "ABORTED", abortCode := some ka.code, message := ka.message,
          location := trimOrNone ka.location,
          category := decoded.map (·.category), reason := decoded.map (·.reason) }
      | none =>
      match matchKeptExec v with
      | some ke =>
        { status := "EXECUTION_FAILURE", location := trimOrNone ke.location,
          message := optTrimOrNone ke.message }
      | none =>
      match matchMoveAbort v with
      | some ma =>
        let rawCode := jsTrim ma.code
        let decoded := if rawCode ≠ "" then decodeAbortCode rawCode else none
        { status := "Move abort", location := ma.location,
          abortCode := if rawCode = "" then none else some rawCode,
          category := decoded.map (·.category), reason := decoded.map (·.reason) }
      | none =>
      match matchSessionAbort v with
      | some (code, msg) =>
        let decoded := decodeAbortCode code
        { status := "ABORTED", abortCode := some code,
          message := optTrimOrNone msg,
          category := decoded.map (·.category), reason := decoded.map (·.reason) }
      | none =>
      match matchSessionError v with
      | some (name, msg) => { status := name, message := optTrimOrNone msg }
      | none =>
      match matchExecFailed v with
      | some detail => { status := jsTrim detail }
      | none => { status := v }

/-! ## Errors (src/types/errors.ts) -/

/-- `CliExecutionError`: non-zero exit of the external CLI. -/
structure CliExecErr where
  command : String
  exitCode : Option Int
  stderr : String
  stdout : String
deriving Repr, DecidableEq

/-- The errors a session operation can raise (all extend `HarnessError`). -/
inductive HarnessErr where
  | sessionDestroyed
  | cliExec (e : CliExecErr)
  | parse (e : CliParseE)
  | compilation (message : String) (diagnostics : String)
deriving Repr, DecidableEq

/-! ## Filesystem and process-adapter model -/

/-- The filesystem as the set of existing paths. -/
abbrev FS := List String

/-- Paths are modelled as already absolute, so `path.resolve` is the
identity. -/
def pathResolve (p : String) : String := p

/-- `path.join a b`. -/
def pathJoin (a b : String) : String := a ++ "/" ++ b

/-- Is `q` strictly below the directory `p`? -/
def pathBelow (p q : String) : Bool := startsWithLit (p ++ "/").data q.data

/-- `fs.existsSync`. -/
def fsExists (fs : FS) (p : String) : Bool := fs.any (fun q => q = p)

/-- `fs.rmSync(p, \x7b recursive: true, force: true \x7d)`: removes `p` and
everything below it; removing a missing path is not an error. -/
def fsRm (fs : FS) (p : String) : FS :=
  fs.filter (fun q => ¬ (q = p ∨ pathBelow p q))

/-- The value `executeAptosCli` resolves with. -/
structure ExecResult where
  stdout : String
  stderr : String
  exitCode : Int
deriving Repr, DecidableEq

/-- The response of one process-adapter invocation: resolution with an
`ExecResult` or rejection with a `CliExecutionError`. -/
abbrev ExecResponse := Except CliExecErr ExecResult

/-! ## Session state (`SimulationSession`, dist/core/session.js) -/

/-- The mutable fields of a `SimulationSession` together with its immutable
configuration. -/
structure SessionState where
  sessionPath : String
  persist : Bool
  destroyed : Bool
  buildDirs : List String
deriving Repr, DecidableEq

/-- `Set.prototype.add` on the insertion-ordered `buildDirs` set. -/
def setAdd (l : List String) (x : String) : List String :=
  if l.contains x then l else l ++ [x]

/-- `Set.prototype.delete`. -/
def setDelete (l : List String) (x : String) : List String :=
  l.filter (· ≠ x)

/-- Result of one session operation: the outcome (value or thrown error),
the session state and filesystem afterwards, and how many times the process
adapter was invoked during the call. -/
structure OpResult (α : Type) where
  outcome : Except HarnessErr α
  state : SessionState
  fs : FS
  cliCalls : Nat

/-! ## Result interpretation helpers (dist/core/session.js) -/

/-- A JavaScript number that may be `NaN`. -/
inductive JsNumber where
  | nan
  | int (n : Int)
deriving Repr, DecidableEq

/-- A full-string numeric literal as accepted by `Number()`: optional sign
and decimal digits, or a `0x` hexadecimal literal (fractional forms are
outside the integer JSON fragment modelled here). -/
def numberLitVal (cs : List Char) : Option Int :=
  let (neg, cs) : Bool × List Char :=
    match cs with
    | c :: rest =>
      if c = Char.ofNat 45 then (true, rest)
      else if c = Char.ofNat 43 then (false, rest)
      else (false, c :: rest)
    | [] => (false, [])
  match cs with
  | z :: x :: rest =>
    if z = Char.ofNat 48 ∧ (x = Char.ofNat 120 ∨ x = Char.ofNat 88) then
      if ¬ neg ∧ ¬ rest.isEmpty ∧ rest.all isHexC then
        some (Int.ofNat (digitsToNat 16 hexVal rest))
      else none
    else
      if (z :: x :: rest).all isDigitC then
        let n : Int := Int.ofNat (digitsToNat 10 digitVal (z :: x :: rest))
        some (if neg then -n else n)
      else none
  | [d] =>
    if isDigitC d then
      let n : Int := Int.ofNat (digitVal d)
      some (if neg then -n else n)
    else none
  | [] => none

/-- Model of the `Number()` coercion on parsed JSON values (`gas_used` is a
numeric string or a number per the CLI envelope schema; arrays and objects
are outside that schema and modelled as `NaN`). -/
def jsNumberOf : Json → JsNumber
  | .num n => .int n
  | .str s =>
    let t := jsTrim s
    if t = "" then .int 0
    else
      match numberLitVal t.data with
      | some n => .int n
      | none => .nan
  | .bool b => .int (if b then 1 else 0)
  | .null => .int 0
  | .arr _ => .nan
  | .obj _ => .nan

/-- `v ?? d`: nullish coalescing after a lookup (`undefined` and `null`
fall through to the default). -/
def jsOrElse (v : Option Json) (d : Json) : Json :=
  match v with
  | none => d
  | some .null => d
  | some w => w

/-- `v === false`. -/
def isFalseJson (v : Option Json) : Bool :=
  match v with
  | some (.bool false) => true
  | _ => false

/-- `txResult?.gas_used != null ? Number(txResult.gas_used) : undefined`. -/
def gasUsedOf (txResult : Option Json) : Option JsNumber :=
  match jsGetO txResult "gas_used" with
  | none => none
  | some .null => none
  | some v => some (jsNumberOf v)

/-- `s || undefined` on a string. -/
def strOrNone (s : String) : Option String :=
  if s = "" then none else some s

/-- `RunResult` (dist/types/results.d.ts): run/runScript outcome.  The
`success` field holds the raw JSON value `txResult?.success ?? false`. -/
structure RunResult where
  success : Json
  vmStatus : Option Json
  gasUsed : Option JsNumber
  events : Option Json
  changes : Option Json
  raw : String
  stderr : Option String

/-- `parseRunResult` (dist/core/session.js): interpret run/runScript stdout;
an unparseable envelope degrades to an unsuccessful result with every
structured field absent. -/
def parseRunResult (stdout stderr : String) : RunResult :=
  match parseJsonOutput stdout with
  | .ok parsed =>
    let txResult := jsGet parsed "Result"
    { success := jsOrElse (jsGetO txResult "success") (.bool false)
      vmStatus := jsGetO txResult "vm_status"
      gasUsed := gasUsedOf txResult
      events := jsGetO txResult "events"
      changes := jsGetO txResult "changes"
      raw := stdout
      stderr := strOrNone stderr }
  | .error _ =>
    { success := .bool false, vmStatus := none, gasUsed := none,
      events := none, changes := none, raw := stdout,
      stderr := strOrNone stderr }

/-- `PublishResult` (dist/types/results.d.ts). -/
structure PublishResult where
  success : Bool
  transactionHash : Option Json
  gasUsed : Option JsNumber
  raw : String

/-- The stdout-interpretation block of `publish()` (dist/core/session.js,
after the exec succeeded): `success` starts `true`; an error envelope or an
explicit `success === false` flips it; a parse failure is swallowed —
"If parsing fails but CLI exited 0, treat as success". -/
def publishInterpret (stdout : String) : PublishResult :=
  match parseJsonOutput stdout with
  | .error _ => { success := true, transactionHash := none, gasUsed := none, raw := stdout }
  | .ok parsed =>
    if isErrorOutput stdout then
      { success := false, transactionHash := none, gasUsed := none, raw := stdout }
    else
      let txResult := jsGet parsed "Result"
      let transactionHash := jsGetO txResult "transaction_hash"
      let gasUsed := gasUsedOf txResult
      if isFalseJson (jsGetO txResult "success") then
        { success := false, transactionHash := transactionHash, gasUsed := gasUsed, raw := stdout }
      else
        { success := true, transactionHash := transactionHash, gasUsed := gasUsed, raw := stdout }

/-- `CompileResult` (dist/types/results.d.ts): `moduleIds` holds
`parsed?.module_ids ?? []`. -/
structure CompileResult where
  moduleIds : Json
  buildDir : String
  raw : String

/-- `ViewResult`. -/
structure ViewResult where
  returnValues : Json
  raw : String

/-- `ViewResourceResult`. -/
structure ViewResourceResult where
  data : Json
  raw : String

/-- `FundResult`. -/
structure FundResult where
  success : Bool
  raw : String
deriving Repr, DecidableEq

/-- `GeneratedAccount` (dist/core/session.js). -/
structure GeneratedAccount where
  address : String
  privateKey : String
  publicKey : String
deriving Repr, DecidableEq

/-! ## Operation options (src/types/config.ts) — carried as data; only the
fields the modelled behaviour reads (package/output directories) influence
the state, the rest parameterize the command line. -/

/-- `CompileOptions`. -/
structure CompileOptions where
  packageDir : String
  namedAddresses : List (String × String) := []
  saveMetadata : Option Bool := none
  outputDir : Option String := none
  skipFetchLatestGitDeps : Bool := false
  dev : Bool := false
deriving Repr, DecidableEq

/-- `PublishOptions`. -/
structure PublishOptions where
  packageDir : String
  senderAddress : String
  privateKey : String
  namedAddresses : List (String × String) := []
  includedArtifacts : Option String := none
  overrideSizeCheck : Bool := false
deriving Repr, DecidableEq

/-- `RunOptions`. -/
structure RunOptions where
  functionId : String
  typeArgs : List String := []
  args : List String := []
  senderAddress : String
  privateKey : String
  maxGas : Option Nat := none
deriving Repr, DecidableEq

/-- `ViewOptions`. -/
structure ViewOptions where
  functionId : String
  typeArgs : List String := []
  args : List String := []
deriving Repr, DecidableEq

/-- `RunScriptOptions`. -/
structure RunScriptOptions where
  scriptPath : String
  typeArgs : List String := []
  args : List String := []
  senderAddress : String
  privateKey : String
deriving Repr, DecidableEq

/-- `FundOptions` (`amount` as its string form). -/
structure FundOptions where
  account : String
  amount : String
deriving Repr, DecidableEq

/-- `ViewResourceOptions`. -/
structure ViewResourceOptions where
  account : String
  resource : String
deriving Repr, DecidableEq

/-! ## The session operations (dist/core/session.js) -/

/-- `cleanBuildDir(packageDir, outputDir?)`: resolve the build directory,
remove it from disk if it exists, and untrack it. -/
def cleanBuildDir (s : SessionState) (fs : FS) (packageDir : String)
    (outputDir : Option String) : SessionState × FS :=
  let buildDir := pathResolve (outputDir.getD (pathJoin packageDir "build"))
  let fs' := if fsExists fs buildDir then fsRm fs buildDir else fs
  ({ s with buildDirs := setDelete s.buildDirs buildDir }, fs')

/-- The catch branch of `compile()`: clean the build directory, then raise a
`CompilationError` when the error carries a non-empty `stderr` (only a
`CliExecutionError` has one), otherwise rethrow the original error. -/
def compileCatch (s : SessionState) (fs : FS) (opts : CompileOptions)
    (err : HarnessErr) : OpResult CompileResult :=
  let cleaned := cleanBuildDir s fs opts.packageDir opts.outputDir
  let out : HarnessErr :=
    match err with
    | .cliExec e =>
      if e.stderr ≠ "" then
        .compilation ("Move compilation failed for " ++ opts.packageDir) e.stderr
      else err
    | _ => err
  ⟨.error out, cleaned.1, cleaned.2, 1⟩

/-- `compile()` — `assertAlive`, run the CLI, extract `module_ids`, track the
resolved build directory; any error thrown inside the `try` (a CLI failure or
a `CliParseError` from `extractResult`) goes through `compileCatch`. -/
def compileOp (s : SessionState) (fs : FS) (opts : CompileOptions)
    (resp : ExecResponse) : OpResult CompileResult :=
  if s.destroyed then ⟨.error .sessionDestroyed, s, fs, 0⟩
  else
    match resp with
    | .error e => compileCatch s fs opts (.cliExec e)
    | .ok result =>
      match extractResult result.stdout with
      | .error pe => compileCatch s fs opts (.parse pe)
      | .ok parsed =>
        let moduleIds := jsOrElse (jsGet parsed "module_ids") (.arr [])
        let buildDir := pathResolve (opts.outputDir.getD (pathJoin opts.packageDir "build"))
        ⟨.ok ⟨moduleIds, buildDir, result.stdout⟩,
          { s with buildDirs := setAdd s.buildDirs buildDir }, fs, 1⟩

/-- `publish()` — `assertAlive`, run the CLI; on a CLI failure clean the
build directory (`cleanBuildDir(options.packageDir)`, no output-dir
override) and rethrow; on success interpret stdout via `publishInterpret`
without touching tracked state. -/
def publishOp (s : SessionState) (fs : FS) (opts : PublishOptions)
    (resp : ExecResponse) : OpResult PublishResult :=
  if s.destroyed then ⟨.error .sessionDestroyed, s, fs, 0⟩
  else
    match resp with
    | .error e =>
      let cleaned := cleanBuildDir s fs opts.packageDir none
      ⟨.error (.cliExec e), cleaned.1, cleaned.2, 1⟩
    | .ok result => ⟨.ok (publishInterpret result.stdout), s, fs, 1⟩

/-- `compileAndPublish()` — `compile` then `publish`, no extra handling; the
second adapter response is consumed only when compile succeeded. -/
def compileAndPublishOp (s : SessionState) (fs : FS)
    (copts : CompileOptions) (popts : PublishOptions)
    (respC respP : ExecResponse) : OpResult PublishResult :=
  let r1 := compileOp s fs copts respC
  match r1.outcome with
  | .error e => ⟨.error e, r1.state, r1.fs, r1.cliCalls⟩
  | .ok _ =>
    let r2 := publishOp r1.state r1.fs popts respP
    ⟨r2.outcome, r2.state, r2.fs, r1.cliCalls + r2.cliCalls⟩

/-- `run()` — `assertAlive`, run the CLI; a CLI failure propagates, a
success is interpreted by `parseRunResult` (which never throws). -/
def runOp (s : SessionState) (fs : FS) (_opts : RunOptions)
    (resp : ExecResponse) : OpResult RunResult :=
  if s.destroyed then ⟨.error .sessionDestroyed, s, fs, 0⟩
  else
    match resp with
    | .error e => ⟨.error (.cliExec e), s, fs, 1⟩
    | .ok result => ⟨.ok (parseRunResult result.stdout result.stderr), s, fs, 1⟩

/-- `runScript()` — identical interpretation to `run()`. -/
def runScriptOp (s : SessionState) (fs : FS) (_opts : RunScriptOptions)
    (resp : ExecResponse) : OpResult RunResult :=
  if s.destroyed then ⟨.error .sessionDestroyed, s, fs, 0⟩
  else
    match resp with
    | .error e => ⟨.error (.cliExec e), s, fs, 1⟩
    | .ok result => ⟨.ok (parseRunResult result.stdout result.stderr), s, fs, 1⟩

/-- `view()` — `assertAlive`, run the CLI; the result payload comes from
`extractResult`, whose `CliParseError` propagates to the caller. -/
def viewOp (s : SessionState) (fs : FS) (_opts : ViewOptions)
    (resp : ExecResponse) : OpResult ViewResult :=
  if s.destroyed then ⟨.error .sessionDestroyed, s, fs, 0⟩
  else
    match resp with
    | .error e => ⟨.error (.cliExec e), s, fs, 1⟩
    | .ok result =>
      match extractResult result.stdout with
      | .error pe => ⟨.error (.parse pe), s, fs, 1⟩
      | .ok parsed => ⟨.ok ⟨parsed, result.stdout⟩, s, fs, 1⟩

/-- `viewResource()` — same extraction as `view()`. -/
def viewResourceOp (s : SessionState) (fs : FS) (_opts : ViewResourceOptions)
    (resp : ExecResponse) : OpResult ViewResourceResult :=
  if s.destroyed then ⟨.error .sessionDestroyed, s, fs, 0⟩
  else
    match resp with
    | .error e => ⟨.error (.cliExec e), s, fs, 1⟩
    | .ok result =>
      match extractResult result.stdout with
      | .error pe => ⟨.error (.parse pe), s, fs, 1⟩
      | .ok parsed => ⟨.ok ⟨parsed, result.stdout⟩, s, fs, 1⟩

/-- `fund()` — `assertAlive`, run the CLI; a zero exit is always reported as
success, there is no payload to parse. -/
def fundOp (s : SessionState) (fs : FS) (_opts : FundOptions)
    (resp : ExecResponse) : OpResult FundResult :=
  if s.destroyed then ⟨.error .sessionDestroyed, s, fs, 0⟩
  else
    match resp with
    | .error e => ⟨.error (.cliExec e), s, fs, 1⟩
    | .ok result => ⟨.ok ⟨true, result.stdout⟩, s, fs, 1⟩

/-- `generateAccount()` — repackages the keypair produced by the external
`Account.generate()` (here an oracle argument); there is no `assertAlive`
and no adapter invocation. -/
def generateAccountOp (s : SessionState) (fs : FS) (kp : GeneratedAccount) :
    OpResult GeneratedAccount :=
  ⟨.ok ⟨kp.address, kp.privateKey, kp.publicKey⟩, s, fs, 0⟩

/-- The `for (const dir of this.buildDirs)` loop of `destroy()`: remove each
tracked directory that still exists, collecting the removed paths in
iteration order. -/
def removeDirs : FS → List String → FS × List String
  | fs, [] => (fs, [])
  | fs, d :: ds =>
    if fsExists fs d then
      ((removeDirs (fsRm fs d) ds).1, d :: (removeDirs (fsRm fs d) ds).2)
    else removeDirs fs ds

/-- Result of `destroy()`: the state and filesystem afterwards and the list
of paths passed to `fs.rmSync` (empty for a no-op repeat call). -/
structure DestroyResult where
  state : SessionState
  fs : FS
  removed : List String
deriving Repr, DecidableEq

/-- `destroy()` — a second call returns immediately; the first sets the
`destroyed` flag, removes every tracked build directory that still exists,
clears the tracked set, and removes the session directory unless `persist`
was configured. -/
def destroyOp (s : SessionState) (fs : FS) : DestroyResult :=
  if s.destroyed then ⟨s, fs, []⟩
  else
    let fs1 := (removeDirs fs s.buildDirs).1
    let removed := (removeDirs fs s.buildDirs).2
    let s' := { s with destroyed := true, buildDirs := [] }
    if ¬ s.persist ∧ fsExists fs1 s.sessionPath then
      ⟨s', fsRm fs1 s.sessionPath, removed ++ [s.sessionPath]⟩
    else ⟨s', fs1, removed⟩

/-! ## Supporting lemmas -/

theorem fsExists_eq_false_iff (fs : FS) (p : String) :
    fsExists fs p = false ↔ ∀ x ∈ fs, x ≠ p := by
  simp [fsExists, List.any_eq_false]

theorem fsExists_fsRm_self (fs : FS) (p : String) : fsExists (fsRm fs p) p = false := by
  rw [fsExists_eq_false_iff]
  intro x hx
  have := (List.mem_filter.mp hx).2
  simp only [decide_eq_true_eq] at this
  exact fun hxp => this (Or.inl hxp)

theorem fsExists_fsRm_false (fs : FS) (p q : String) (h : fsExists fs p = false) :
    fsExists (fsRm fs q) p = false := by
  rw [fsExists_eq_false_iff] at h ⊢
  intro x hx
  exact h x (List.mem_of_mem_filter hx)

theorem removeDirs_absent (ds : List String) (fs : FS) (p : String)
    (h : fsExists fs p = false) : fsExists (removeDirs fs ds).1 p = false := by
  induction ds generalizing fs with
  | nil => simpa [removeDirs] using h
  | cons d ds ih =>
    rw [removeDirs]
    split
    · exact ih _ (fsExists_fsRm_false _ _ _ h)
    · exact ih _ h

theorem removeDirs_mem_absent (ds : List String) (fs : FS) (d : String)
    (h : d ∈ ds) : fsExists (removeDirs fs ds).1 d = false := by
  induction ds generalizing fs with
  | nil => cases h
  | cons a ds ih =>
    rcases List.mem_cons.mp h with rfl | hmem
    · rw [removeDirs]
      split
      · exact removeDirs_absent _ _ _ (fsExists_fsRm_self _ _)
      · rename_i hcond
        exact removeDirs_absent _ _ _ (Bool.not_eq_true _ ▸ hcond)
    · rw [removeDirs]
      split
      · exact ih _ hmem
      · exact ih _ hmem

theorem ERROR_CATEGORIES_isSome (c : Nat) :
    (ERROR_CATEGORIES c).isSome = true ↔ 1 ≤ c ∧ c ≤ 13 := by
  match c with
  | 0 => decide
  | 1 => decide
  | 2 => decide
  | 3 => decide
  | 4 => decide
  | 5 => decide
  | 6 => decide
  | 7 => decide
  | 8 => decide
  | 9 => decide
  | 10 => decide
  | 11 => decide
  | 12 => decide
  | 13 => decide
  | n + 14 =>
    have hnone : ERROR_CATEGORIES (n + 14) = none := by
      unfold ERROR_CATEGORIES
      repeat rw [if_neg (by omega)]
    rw [hnone]
    constructor
    · intro h; exact absurd h (by decide)
    · intro h; omega

theorem jsIndexOf_eq_encode (x : Char) (cs : List Char) :
    jsIndexOf cs x = encodeIdx (firstIdxOf x cs) := by
  induction cs with
  | nil => rfl
  | cons c cs ih =>
    rw [jsIndexOf, firstIdxOf]
    by_cases h : c = x
    · rw [if_pos h, if_pos h]; rfl
    · rw [if_neg h, if_neg h, ih]
      cases firstIdxOf x cs with
      | none => rfl
      | some i =>
        simp only [encodeIdx, Option.map_some']
        rw [if_neg (by omega)]
        omega

theorem firstDelimIdx_eq_optMin (cs : List Char) :
    firstDelimIdx cs = optMin (firstIdxOf lbrace cs) (firstIdxOf lbrack cs) := by
  induction cs with
  | nil => rfl
  | cons c cs ih =>
    rw [firstDelimIdx, firstIdxOf, firstIdxOf]
    by_cases hb : c = lbrace
    · rw [if_pos (by simp [isJsonDelim, hb]), if_pos hb, if_neg (by rw [hb]; decide)]
      cases firstIdxOf lbrack cs with
      | none => rfl
      | some j => simp [optMin]
    · by_cases hk : c = lbrack
      · rw [if_pos (by simp [isJsonDelim, hk]), if_neg hb, if_pos hk]
        cases firstIdxOf lbrace cs with
        | none => rfl
        | some i => simp [optMin]
      · rw [if_neg (by simp [isJsonDelim, hb, hk]), if_neg hb, if_neg hk, ih]
        cases firstIdxOf lbrace cs <;> cases firstIdxOf lbrack cs <;>
          simp [optMin] <;> omega

theorem jsStartIdx_eq_firstDelim (cs : List Char) :
    jsStartIdx cs = encodeIdx (firstDelimIdx cs) := by
  rw [firstDelimIdx_eq_optMin]
  unfold jsStartIdx
  rw [jsIndexOf_eq_encode, jsIndexOf_eq_encode]
  cases firstIdxOf lbrace cs <;> cases firstIdxOf lbrack cs <;>
    simp only [encodeIdx, optMin] <;> split_ifs <;> first | rfl | omega

theorem cleanBuildDir_absent (s : SessionState) (fs : FS) (pd : String)
    (od : Option String) :
    fsExists (cleanBuildDir s fs pd od).2 (pathResolve (od.getD (pathJoin pd "build"))) = false := by
  unfold cleanBuildDir
  by_cases h : fsExists fs (pathResolve (od.getD (pathJoin pd "build"))) = true
  · simp only [h, if_pos]
    exact fsExists_fsRm_self _ _
  · simp only [Bool.not_eq_true] at h
    simp [h]

/-! ## Claim theorems -/

/-- C1: on a destroyed session every lifecycle-gated operation — `compile`,
`publish`, `compileAndPublish`, `run`, `view`, `runScript`, `fund`,
`viewResource` — fails with `SessionDestroyedError` immediately, leaving the
session state and the filesystem untouched, with the process adapter invoked
zero times. -/
theorem c1_destroyed_ops_fail (s : SessionState) (fs : FS)
    (h : s.destroyed = true) :
    (∀ opts resp, compileOp s fs opts resp = ⟨.error .sessionDestroyed, s, fs, 0⟩) ∧
    (∀ opts resp, publishOp s fs opts resp = ⟨.error .sessionDestroyed, s, fs, 0⟩) ∧
    (∀ copts popts respC respP, compileAndPublishOp s fs copts popts respC respP =
      ⟨.error .sessionDestroyed, s, fs, 0⟩) ∧
    (∀ opts resp, runOp s fs opts resp = ⟨.error .sessionDestroyed, s, fs, 0⟩) ∧
    (∀ opts resp, viewOp s fs opts resp = ⟨.error .sessionDestroyed, s, fs, 0⟩) ∧
    (∀ opts resp, runScriptOp s fs opts resp = ⟨.error .sessionDestroyed, s, fs, 0⟩) ∧
    (∀ opts resp, fundOp s fs opts resp = ⟨.error .sessionDestroyed, s, fs, 0⟩) ∧
    (∀ opts resp, viewResourceOp s fs opts resp = ⟨.error .sessionDestroyed, s, fs, 0⟩) := by
  refine ⟨fun opts resp => ?_, fun opts resp => ?_, fun copts popts respC respP => ?_,
    fun opts resp => ?_, fun opts resp => ?_, fun opts resp => ?_,
    fun opts resp => ?_, fun opts resp => ?_⟩
  · simp [compileOp, h]
  · simp [publishOp, h]
  · simp [compileAndPublishOp, compileOp, h]
  · simp [runOp, h]
  · simp [viewOp, h]
  · simp [runScriptOp, h]
  · simp [fundOp, h]
  · simp [viewResourceOp, h]

/-- Witness for C1: a concrete destroyed session rejects `compile` and
`fund` with zero adapter invocations. -/
theorem c1_destroyed_ops_fail_witness :
    compileOp ⟨"/s", false, true, []⟩ [] ⟨"/p", [], none, none, false, false⟩
        (.ok ⟨"", "", 0⟩) =
      ⟨.error .sessionDestroyed, ⟨"/s", false, true, []⟩, [], 0⟩ ∧
    fundOp ⟨"/s", false, true, []⟩ [] ⟨"0x1", "5"⟩ (.ok ⟨"", "", 0⟩) =
      ⟨.error .sessionDestroyed, ⟨"/s", false, true, []⟩, [], 0⟩ :=
  ⟨(c1_destroyed_ops_fail _ _ rfl).1 _ _,
   (c1_destroyed_ops_fail _ _ rfl).2.2.2.2.2.2.1 _ _⟩

/-- C2: when the compile CLI invocation fails, the build directory resolved
for the package (the custom `outputDir` if given, otherwise
`packageDir/build`) is removed from disk and untracked in the resulting
state, and the raised error is a `CompilationError` carrying the execution
errors stderr diagnostics when the stderr is non-empty, otherwise the original
`CliExecutionError` unchanged. -/
theorem c2_compile_failure_cleanup (s : SessionState) (fs : FS)
    (opts : CompileOptions) (e : CliExecErr) (h : s.destroyed = false) :
    fsExists (compileOp s fs opts (.error e)).fs
      (pathResolve (opts.outputDir.getD (pathJoin opts.packageDir "build"))) = false ∧
    (compileOp s fs opts (.error e)).state.buildDirs =
      setDelete s.buildDirs
        (pathResolve (opts.outputDir.getD (pathJoin opts.packageDir "build"))) ∧
    (compileOp s fs opts (.error e)).cliCalls = 1 ∧
    (e.stderr ≠ "" → (compileOp s fs opts (.error e)).outcome =
      .error (.compilation ("Move compilation failed for " ++ opts.packageDir) e.stderr)) ∧
    (e.stderr = "" → (compileOp s fs opts (.error e)).outcome = .error (.cliExec e)) := by
  have hop : compileOp s fs opts (.error e) = compileCatch s fs opts (.cliExec e) := by
    simp [compileOp, h]
  refine ⟨?_, ?_, ?_, ?_, ?_⟩
  · rw [hop]; exact cleanBuildDir_absent s fs opts.packageDir opts.outputDir
  · rw [hop]; rfl
  · rw [hop]; rfl
  · intro hs; rw [hop]; unfold compileCatch; simp [hs]
  · intro hs; rw [hop]; unfold compileCatch; simp [hs]

/-- Witness for C2: a concrete compile failure with diagnostics removes the
tracked build directory and raises a `CompilationError`. -/
theorem c2_compile_failure_cleanup_witness :
    fsExists (compileOp ⟨"/s", false, false, ["/p/build"]⟩ ["/p/build", "/s"]
        ⟨"/p", [], none, none, false, false⟩
        (.error ⟨"aptos move compile", some 1, "error: boom", ""⟩)).fs "/p/build" = false ∧
    (compileOp ⟨"/s", false, false, ["/p/build"]⟩ ["/p/build", "/s"]
        ⟨"/p", [], none, none, false, false⟩
        (.error ⟨"aptos move compile", some 1, "error: boom", ""⟩)).outcome =
      .error (.compilation "Move compilation failed for /p" "error: boom") :=
  ⟨(c2_compile_failure_cleanup _ _ _ _ rfl).1,
   (c2_compile_failure_cleanup _ _ _ _ rfl).2.2.2.1 (by decide)⟩

/-- C3: `publish` on success leaves the filesystem and the tracked set
untouched (the build directory stays on disk and stays tracked), and on a
CLI failure removes the package's build directory (`packageDir/build`) from
disk, untracks it, and rethrows the `CliExecutionError`. -/
theorem c3_publish_build_dir (s : SessionState) (fs : FS)
    (opts : PublishOptions) (h : s.destroyed = false) :
    (∀ result : ExecResult,
      (publishOp s fs opts (.ok result)).fs = fs ∧
      (publishOp s fs opts (.ok result)).state = s) ∧
    (∀ e : CliExecErr,
      fsExists (publishOp s fs opts (.error e)).fs
        (pathResolve (pathJoin opts.packageDir "build")) = false ∧
      (publishOp s fs opts (.error e)).state.buildDirs =
        setDelete s.buildDirs (pathResolve (pathJoin opts.packageDir "build")) ∧
      (publishOp s fs opts (.error e)).outcome = .error (.cliExec e)) := by
  constructor
  · intro result
    constructor <;> simp [publishOp, h]
  · intro e
    have hop : publishOp s fs opts (.error e) =
        ⟨.error (.cliExec e), (cleanBuildDir s fs opts.packageDir none).1,
          (cleanBuildDir s fs opts.packageDir none).2, 1⟩ := by
      simp [publishOp, h]
    refine ⟨?_, ?_, ?_⟩
    · rw [hop]; exact cleanBuildDir_absent s fs opts.packageDir none
    · rw [hop]; rfl
    · rw [hop]

/-- Witness for C3: concrete publish success keeps the build directory,
concrete failure removes it. -/
theorem c3_publish_build_dir_witness :
    (publishOp ⟨"/s", false, false, ["/p/build"]⟩ ["/p/build", "/s"]
        ⟨"/p", "0xA", "0xKey", [], none, false⟩ (.ok ⟨"\x7b\"Result\":\x7b\"success\":true\x7d\x7d", "", 0⟩)).fs =
      ["/p/build", "/s"] ∧
    fsExists (publishOp ⟨"/s", false, false, ["/p/build"]⟩ ["/p/build", "/s"]
        ⟨"/p", "0xA", "0xKey", [], none, false⟩
        (.error ⟨"aptos move publish", some 1, "err", ""⟩)).fs "/p/build" = false :=
  ⟨((c3_publish_build_dir _ _ _ rfl).1 _).1,
   ((c3_publish_build_dir _ _ _ rfl).2 _).1⟩

/-- C4 counterexample: with a zero exit code and stdout that is not
recoverable JSON, `publish` does NOT return an unsuccessful-result value —
it returns a result whose success flag is `true` (structured fields
absent), contradicting the claim for the `publish` member of the write
operations. -/
theorem c4_publish_parse_failure_cex :
    (publishOp ⟨"/s", false, false, []⟩ [] ⟨"/p", "0xA", "0xKey", [], none, false⟩
        (.ok ⟨"not json", "", 0⟩)).outcome =
      .ok { success := true, transactionHash := none, gasUsed := none, raw := "not json" } :=
  rfl

/-- C4 (amended): when the CLI exits zero but stdout is not recoverable
JSON, the read operations `view` and `viewResource` raise the
`CliParseError`; the write operations `run` and `runScript` return an
unsuccessful result (success `false`, structured fields absent) without
throwing; and `publish` returns a result with success flag `true`
(structured fields absent) without throwing. -/
theorem c4_parse_failure_behavior (s : SessionState) (fs : FS)
    (stdout stderr : String) (pe : CliParseE)
    (h : s.destroyed = false) (hp : parseJsonOutput stdout = .error pe) :
    (∀ opts, (viewOp s fs opts (.ok ⟨stdout, stderr, 0⟩)).outcome = .error (.parse pe)) ∧
    (∀ opts, (viewResourceOp s fs opts (.ok ⟨stdout, stderr, 0⟩)).outcome = .error (.parse pe)) ∧
    (∀ opts, (runOp s fs opts (.ok ⟨stdout, stderr, 0⟩)).outcome =
      .ok ⟨.bool false, none, none, none, none, stdout, strOrNone stderr⟩) ∧
    (∀ opts, (runScriptOp s fs opts (.ok ⟨stdout, stderr, 0⟩)).outcome =
      .ok ⟨.bool false, none, none, none, none, stdout, strOrNone stderr⟩) ∧
    (∀ opts, (publishOp s fs opts (.ok ⟨stdout, stderr, 0⟩)).outcome =
      .ok ⟨true, none, none, stdout⟩) := by
  refine ⟨fun opts => ?_, fun opts => ?_, fun opts => ?_, fun opts => ?_, fun opts => ?_⟩
  · simp [viewOp, h, extractResult, hp]
  · simp [viewResourceOp, h, extractResult, hp]
  · simp [runOp, h, parseRunResult, hp]
  · simp [runScriptOp, h, parseRunResult, hp]
  · simp [publishOp, h, publishInterpret, hp]

/-- Witness for C4 (amended) at the concrete stdout `"not json"`. -/
theorem c4_parse_failure_behavior_witness :
    (viewOp ⟨"/s", false, false, []⟩ [] ⟨"0x1::m::f", [], []⟩
        (.ok ⟨"not json", "", 0⟩)).outcome =
      .error (.parse ⟨"Failed to parse JSON from CLI output", "not json"⟩) ∧
    (runOp ⟨"/s", false, false, []⟩ [] ⟨"0x1::m::f", [], [], "0xA", "0xKey", none⟩
        (.ok ⟨"not json", "", 0⟩)).outcome =
      .ok ⟨.bool false, none, none, none, none, "not json", none⟩ :=
  ⟨(c4_parse_failure_behavior ⟨"/s", false, false, []⟩ [] "not json" ""
      ⟨"Failed to parse JSON from CLI output", "not json"⟩ rfl rfl).1 _,
   (c4_parse_failure_behavior ⟨"/s", false, false, []⟩ [] "not json" ""
      ⟨"Failed to parse JSON from CLI output", "not json"⟩ rfl rfl).2.2.1 _⟩

/-- C5: if the publish CLI invocation exits zero but its stdout cannot be
parsed as JSON, `publish` returns success flag `true` with `transactionHash`
and `gasUsed` absent and the raw stdout attached, leaving state and
filesystem untouched. -/
theorem c5_publish_zero_exit_unparseable (s : SessionState) (fs : FS)
    (opts : PublishOptions) (result : ExecResult) (pe : CliParseE)
    (h : s.destroyed = false) (hp : parseJsonOutput result.stdout = .error pe) :
    publishOp s fs opts (.ok result) =
      ⟨.ok ⟨true, none, none, result.stdout⟩, s, fs, 1⟩ := by
  simp [publishOp, h, publishInterpret, hp]

/-- Witness for C5 at the concrete stdout `"###"`. -/
theorem c5_publish_zero_exit_unparseable_witness :
    publishOp ⟨"/s", false, false, []⟩ [] ⟨"/p", "0xA", "0xKey", [], none, false⟩
        (.ok ⟨"###", "warning", 0⟩) =
      ⟨.ok ⟨true, none, none, "###"⟩, ⟨"/s", false, false, []⟩, [], 1⟩ :=
  c5_publish_zero_exit_unparseable _ _ _ _
    ⟨"Failed to parse JSON from CLI output", "###"⟩ rfl rfl

/-- C6 counterexample: decoding the literal input
`"status ABORTED with code 65542 in 0x1::coin"` populates the category
`"INVALID_ARGUMENT"` (65542 = 0x10006, category byte 0x1), not
`"OUT_OF_RANGE"` as the claim states. -/
theorem c6_vm_status_decode_cex :
    (parseVmStatus (some "status ABORTED with code 65542 in 0x1::coin")).category =
      some "INVALID_ARGUMENT" ∧
    (parseVmStatus (some "status ABORTED with code 65542 in 0x1::coin")).category ≠
      some "OUT_OF_RANGE" := by
  constructor
  · rfl
  · intro hx
    rw [show (parseVmStatus (some "status ABORTED with code 65542 in 0x1::coin")).category =
          some "INVALID_ARGUMENT" from rfl] at hx
    simp at hx

/-- C6 (amended): decoding `"status ABORTED with code 65542 in 0x1::coin"`
yields status `"ABORTED"`, abortCode `"65542"`, category
`"INVALID_ARGUMENT"` with 16-bit reason 6, and location `"0x1::coin"`. -/
theorem c6_vm_status_decode_amended :
    parseVmStatus (some "status ABORTED with code 65542 in 0x1::coin") =
      { status := "ABORTED", abortCode := some "65542", location := some "0x1::coin",
        message := none, category := some "INVALID_ARGUMENT", reason := some 6 } :=
  rfl

/-- C7: the first `destroy()` removes every tracked build directory (missing
ones are skipped without error), clears the tracked set, sets the destroyed
flag, removes the session directory unless `persist` was configured, and
every subsequent call is a no-op that performs zero filesystem removals, so
the on-disk state after the second call equals the state after the first. -/
theorem c7_destroy_idempotent (s : SessionState) (fs : FS)
    (h : s.destroyed = false) :
    (∀ d ∈ s.buildDirs, fsExists (destroyOp s fs).fs d = false) ∧
    (destroyOp s fs).state = { s with destroyed := true, buildDirs := [] } ∧
    (s.persist = false → fsExists (destroyOp s fs).fs s.sessionPath = false) ∧
    (s.persist = true → (destroyOp s fs).fs = (removeDirs fs s.buildDirs).1 ∧
      (destroyOp s fs).removed = (removeDirs fs s.buildDirs).2) ∧
    destroyOp (destroyOp s fs).state (destroyOp s fs).fs =
      ⟨(destroyOp s fs).state, (destroyOp s fs).fs, []⟩ := by
  refine ⟨?_, ?_, ?_, ?_, ?_⟩
  · intro d hd
    simp only [destroyOp, h, Bool.false_eq_true, if_false]
    split
    · exact fsExists_fsRm_false _ _ _ (removeDirs_mem_absent _ _ _ hd)
    · exact removeDirs_mem_absent _ _ _ hd
  · simp only [destroyOp, h, Bool.false_eq_true, if_false]
    split <;> rfl
  · intro hp
    simp only [destroyOp, h, Bool.false_eq_true, if_false]
    split
    · exact fsExists_fsRm_self _ _
    · rename_i hcond
      simp only [hp, not_and, Bool.true_eq_false] at hcond
      simp only [Bool.not_eq_true] at hcond
      exact hcond (by simp)
  · intro hp
    simp only [destroyOp, h, Bool.false_eq_true, if_false]
    rw [if_neg (by simp [hp])]
    exact ⟨rfl, rfl⟩
  · have hnoop : ∀ r : DestroyResult, r.state.destroyed = true →
        destroyOp r.state r.fs = ⟨r.state, r.fs, []⟩ := by
      intro r hr
      unfold destroyOp
      rw [if_pos hr]
    apply hnoop
    simp only [destroyOp, h, Bool.false_eq_true, if_false]
    split <;> rfl

/-- Witness for C7 at a concrete session with one tracked build directory. -/
theorem c7_destroy_idempotent_witness :
    fsExists (destroyOp ⟨"/s", false, false, ["/b"]⟩ ["/b", "/s", "/x"]).fs "/b" = false ∧
    (destroyOp ⟨"/s", false, false, ["/b"]⟩ ["/b", "/s", "/x"]).state =
      ⟨"/s", false, true, []⟩ ∧
    fsExists (destroyOp ⟨"/s", false, false, ["/b"]⟩ ["/b", "/s", "/x"]).fs "/s" = false ∧
    destroyOp (destroyOp ⟨"/s", false, false, ["/b"]⟩ ["/b", "/s", "/x"]).state
        (destroyOp ⟨"/s", false, false, ["/b"]⟩ ["/b", "/s", "/x"]).fs =
      ⟨(destroyOp ⟨"/s", false, false, ["/b"]⟩ ["/b", "/s", "/x"]).state,
        (destroyOp ⟨"/s", false, false, ["/b"]⟩ ["/b", "/s", "/x"]).fs, []⟩ :=
  ⟨(c7_destroy_idempotent _ _ rfl).1 "/b" (by simp),
   (c7_destroy_idempotent _ _ rfl).2.1,
   (c7_destroy_idempotent _ _ rfl).2.2.1 rfl,
   (c7_destroy_idempotent _ _ rfl).2.2.2.2⟩

set_option maxRecDepth 4096 in
/-- C8: JSON envelope extraction first parses the full trimmed stdout; on
failure it retries from the earliest occurrence of an object- or
array-opening character (the `startIdx` computation equals that earliest
index); if both attempts fail it raises `CliParseError` carrying the
trimmed raw text.  Concretely, stdout `"Compiling...\n..."` followed by the
Result envelope extracts the `module_ids` payload, and the bare
`Error`-envelope is classified as an error output while `extractResult`
returns the whole object unchanged. -/
theorem c8_json_envelope_extraction :
    (∀ cs : List Char, jsStartIdx cs = encodeIdx (firstDelimIdx cs)) ∧
    (∀ (s : String) (v : Json), jsonParse (jsTrim s) = some v →
      parseJsonOutput s = .ok v) ∧
    (∀ (s : String) (i : Nat) (v : Json), jsonParse (jsTrim s) = none →
      firstDelimIdx (jsTrim s).data = some i →
      jsonParse ⟨(jsTrim s).data.drop i⟩ = some v → parseJsonOutput s = .ok v) ∧
    (∀ s : String, jsonParse (jsTrim s) = none →
      (∀ i, firstDelimIdx (jsTrim s).data = some i →
        jsonParse ⟨(jsTrim s).data.drop i⟩ = none) →
      parseJsonOutput s = .error ⟨"Failed to parse JSON from CLI output", jsTrim s⟩) ∧
    extractResult "Compiling...\n\x7b\"Result\":\x7b\"module_ids\":[\"0x1::foo\"]\x7d\x7d" =
      .ok (.obj [("module_ids", .arr [.str "0x1::foo"])]) ∧
    isErrorOutput "\x7b\"Error\":\"boom\"\x7d" = true ∧
    extractResult "\x7b\"Error\":\"boom\"\x7d" = .ok (.obj [("Error", .str "boom")]) := by
  refine ⟨jsStartIdx_eq_firstDelim, ?_, ?_, ?_, rfl, rfl, rfl⟩
  · intro s v hv
    simp [parseJsonOutput, hv]
  · intro s i v h1 h2 h3
    simp only [parseJsonOutput, h1]
    rw [jsStartIdx_eq_firstDelim, h2]
    rw [if_pos (by simp [encodeIdx])]
    simp [encodeIdx, h3]
  · intro s h1 h2
    simp only [parseJsonOutput, h1]
    rw [jsStartIdx_eq_firstDelim]
    cases hf : firstDelimIdx (jsTrim s).data with
    | none => simp [encodeIdx]
    | some i =>
      rw [if_pos (by simp [encodeIdx])]
      simp [encodeIdx, h2 i hf]

/-- Witness for C8: a log-prefixed envelope parses from index 13, and a
non-JSON stdout raises the parse failure carrying the trimmed text. -/
theorem c8_json_envelope_extraction_witness :
    parseJsonOutput "Compiling...\n\x7b\"a\":1\x7d" = .ok (.obj [("a", .num 1)]) ∧
    parseJsonOutput "@@" = .error ⟨"Failed to parse JSON from CLI output", "@@"⟩ :=
  ⟨c8_json_envelope_extraction.2.2.1 "Compiling...\n\x7b\"a\":1\x7d" 13
      (.obj [("a", .num 1)]) rfl rfl rfl,
   c8_json_envelope_extraction.2.2.2.1 "@@" rfl (fun _ hi => nomatch hi)⟩

/-- C9: for every abort-code string whose `parseInt` value (hexadecimal when
the string starts with `0x`, decimal otherwise) is the non-negative number
`n`, the decoder populates category and reason iff the category byte
`n / 2^16 mod 2^8` is one of the 13 canonical entries; when populated, the
reason is the low 16 bits of the code and the category is the table entry
for the byte; an unrecognized byte leaves the decode absent. -/
theorem c9_decode_abort_code (code : String) (n : Nat)
    (hp : jsParseInt (startsWithLit "0x".data code.data) code = some (n : Int)) :
    ((decodeAbortCode code).isSome = true ↔
      1 ≤ n / 65536 % 256 ∧ n / 65536 % 256 ≤ 13) ∧
    (∀ d, decodeAbortCode code = some d →
      d.reason = n % 65536 ∧ ERROR_CATEGORIES (n / 65536 % 256) = some d.category) := by
  have hd : decodeAbortCode code =
      match ERROR_CATEGORIES (n / 65536 % 256) with
      | none => none
      | some name => some ⟨name, n % 65536, "0x" ++ toHexStr n⟩ := by
    unfold decodeAbortCode
    rw [hp]
    dsimp only
    rw [if_neg (by omega)]
    simp only [Int.toNat_natCast]
  constructor
  · rw [hd, ← ERROR_CATEGORIES_isSome (n / 65536 % 256)]
    cases ERROR_CATEGORIES (n / 65536 % 256) <;> simp
  · intro d hdd
    rw [hd] at hdd
    cases hE : ERROR_CATEGORIES (n / 65536 % 256) with
    | none => rw [hE] at hdd; cases hdd
    | some name =>
      rw [hE] at hdd
      obtain rfl := (Option.some.injEq _ _).mp hdd
      exact ⟨rfl, rfl⟩

/-- Witness for C9 at the canonical code `0x10006` (category byte 1, reason
6). -/
theorem c9_decode_abort_code_witness :
    (((decodeAbortCode "0x10006").isSome = true ↔
        1 ≤ 65542 / 65536 % 256 ∧ 65542 / 65536 % 256 ≤ 13) ∧
      (∀ d, decodeAbortCode "0x10006" = some d →
        d.reason = 65542 % 65536 ∧
        ERROR_CATEGORIES (65542 / 65536 % 256) = some d.category)) ∧
    decodeAbortCode "0x10006" = some ⟨"INVALID_ARGUMENT", 6, "0x10006"⟩ :=
  ⟨c9_decode_abort_code "0x10006" 65542 rfl, rfl⟩

/-- C10: `generateAccount` is not lifecycle-gated: on every session state —
in particular the state left by `destroy()` — it returns the generated
keypair (never `SessionDestroyedError`) and performs zero process-adapter
invocations. -/
theorem c10_generate_account_ungated (s : SessionState) (fs : FS)
    (kp : GeneratedAccount) :
    generateAccountOp (destroyOp s fs).state (destroyOp s fs).fs kp =
      ⟨.ok kp, (destroyOp s fs).state, (destroyOp s fs).fs, 0⟩ ∧
    ∀ s' fs', generateAccountOp s' fs' kp = ⟨.ok kp, s', fs', 0⟩ :=
  ⟨rfl, fun _ _ => rfl⟩

end MoveHarness
